import Mathlib

/-!
Verification development for the solar-aware charging controller
(`solar_charge_controller.py`) and the amperage-setting actuator call
(`python_chargepoint/client.py`).

Modelling conventions (shallow embedding):
* Python floats and ints that carry power/current values are modelled as `ℚ`
  (all telemetry arithmetic in the controller is plain field arithmetic).
* The remote charger API is modelled as explicit inputs (the responses the
  remote would return) plus an explicit trace of outgoing calls; a tick of
  the control loop is a pure function from the loop state and these inputs
  to a new state, the call trace, and the emitted metrics sample.
* Remote calls that the claims exercise on their success path are modelled
  as succeeding; the one failure the claims are about — a failed session
  `refresh()` — is an explicit input (`RefreshOutcome`), and the failure
  modes of `set_amperage_limit` are modelled by its `Except`-like result.
-/

/-- Python `min(list)` on a non-empty list (`solar_charge_controller.py`
uses `min(allowed_amps)`).  Python raises `ValueError` on an empty list;
the `[]` case here is junk (`0`) and every theorem that touches it carries
a non-emptiness hypothesis. -/
def listMin : List ℚ → ℚ
  | [] => 0
  | a :: l => l.foldl min a

/-- Python `max(list)` on a non-empty list, same conventions as `listMin`. -/
def listMax : List ℚ → ℚ
  | [] => 0
  | a :: l => l.foldl max a

/-- `determine_target_amperage` (solar_charge_controller.py lines 113-124):
returns 0 for non-positive excess; otherwise rounds the ideal amperage
`max(excess / voltage, min(allowed_amps) - 0.5)` up to the nearest allowed
step, falling back to `max(allowed_amps)` when no step is large enough. -/
def determine_target_amperage (avg_excess_solar_watts : ℚ)
    (allowed_amps : List ℚ) (voltage : ℚ) : ℚ :=
  if avg_excess_solar_watts ≤ 0 then 0
  else
    let ideal_amps := max (avg_excess_solar_watts / voltage) (listMin allowed_amps - 1/2)
    let possible_amps := allowed_amps.filter (fun amp => decide (ideal_amps ≤ amp))
    if possible_amps = [] then listMax allowed_amps
    else listMin possible_amps

/-- One reading of `get_home_charger_status`: the fields of the charger
status the controller consumes. -/
structure ChargerStatus where
  amperage_limit : ℚ
  possible_amperage_limits : List ℚ
  plugged_in : Bool
  charging_status : String
deriving DecidableEq

/-- The tracked charging session (`current_charging_session`): the model
keeps the one field the controller reads, `power_kw`. -/
structure Session where
  power_kw : ℚ
deriving DecidableEq

/-- Outcome of `current_charging_session.refresh()`: either it succeeds and
the session reports `power_kw`, or it raises. -/
inductive RefreshOutcome where
  | ok (power_kw : ℚ)
  | fail
deriving DecidableEq

/-- One outgoing remote call, recorded in order.  `setAmperage`,
`startSession` and `stopSession` actuate the charger; `getStatus` and
`refreshSession` only read. -/
inductive ActuatorCall where
  | getStatus
  | setAmperage (amps : ℚ)
  | startSession
  | stopSession
  | refreshSession
deriving DecidableEq

/-- Does the call actuate the charger (as opposed to only reading)? -/
def isActuating : ActuatorCall → Bool
  | ActuatorCall.setAmperage _ => true
  | ActuatorCall.startSession => true
  | ActuatorCall.stopSession => true
  | _ => false

/-- Result of `get_current_charging_watts`: the watts returned, the tracked
session afterwards, and the remote calls made. -/
structure WattsResult where
  watts : ℚ
  session : Option Session
  calls : List ActuatorCall
deriving DecidableEq

/-- `get_current_charging_watts` (lines 148-164): with a tracked session,
refresh it and return `power_kw * 1000`; if the refresh raises, clear the
tracked session and return 0; with no tracked session return 0 without any
remote call. -/
def get_current_charging_watts (session : Option Session)
    (refresh : RefreshOutcome) : WattsResult :=
  match session with
  | some _ =>
    match refresh with
    | RefreshOutcome.ok kw => ⟨kw * 1000, some ⟨kw⟩, [ActuatorCall.refreshSession]⟩
    | RefreshOutcome.fail => ⟨0, none, [ActuatorCall.refreshSession]⟩
  | none => ⟨0, none, []⟩

/-- Remote responses consumed inside `apply_charging_decision`: the status
returned by the post-set `get_home_charger_status` poll, and the session
handle a `start_charging_session` call would return. -/
structure ApplyEnv where
  updated_status : ChargerStatus
  new_session : Session
deriving DecidableEq

/-- Result of `apply_charging_decision`: the tracked session afterwards,
the remote calls made in order, the value returned (line 213), and whether
the non-fatal amperage-mismatch warning was logged (line 200). -/
structure ApplyResult where
  session : Option Session
  calls : List ActuatorCall
  confirmed : ℚ
  warned : Bool
deriving DecidableEq

/-- `apply_charging_decision` (lines 166-213), on the path where every
remote call succeeds.  `target = 0`: stop an active session, else lower the
limit to `min_amperage` when it is not already there; return 0.
`target > 0`: when the limit differs, stop an active session first, command
the new limit, poll the status once (warning when it does not yet reflect
the request), restart the session if one was stopped; afterwards start a
session when none is tracked and a vehicle is plugged in. -/
def apply_charging_decision (env : ApplyEnv) (session : Option Session)
    (charger_status : ChargerStatus) (target_amps min_amperage : ℚ) : ApplyResult :=
  let current_amperage := charger_status.amperage_limit
  if target_amps = 0 then
    match session with
    | some _ => ⟨none, [ActuatorCall.stopSession], 0, false⟩
    | none =>
      if current_amperage ≠ min_amperage then
        ⟨none, [ActuatorCall.setAmperage min_amperage], 0, false⟩
      else
        ⟨none, [], 0, false⟩
  else
    let step1 : ApplyResult :=
      if current_amperage ≠ target_amps then
        let stopCalls : List ActuatorCall :=
          match session with
          | some _ => [ActuatorCall.stopSession]
          | none => []
        let confirmed := env.updated_status.amperage_limit
        let restartCalls : List ActuatorCall :=
          match session with
          | some _ => [ActuatorCall.startSession]
          | none => []
        let session1 : Option Session :=
          match session with
          | some _ => some env.new_session
          | none => none
        ⟨session1,
         stopCalls ++ [ActuatorCall.setAmperage target_amps, ActuatorCall.getStatus] ++ restartCalls,
         confirmed, decide (confirmed ≠ target_amps)⟩
      else
        ⟨session, [], current_amperage, false⟩
    if step1.session = none ∧ charger_status.plugged_in = true then
      ⟨some env.new_session, step1.calls ++ [ActuatorCall.startSession],
       step1.confirmed, step1.warned⟩
    else
      step1

/-- One telemetry sample as returned by `get_solar_power_status`
(lines 103-107). -/
structure SolarSample where
  production_watts : ℚ
  consumption_watts : ℚ
  solar_slope_watts_per_second : ℚ
deriving DecidableEq

/-- Startup configuration the loop body reads: the control interval in
minutes and `min_amperage = min(allowed_amps)` taken from the startup
charger status (lines 232, 253). -/
structure Config where
  control_interval : ℚ
  min_amperage : ℚ
deriving DecidableEq

/-- `minimum_watts_required = (min_amperage - 0.5) * 240` (line 254). -/
def minimum_watts_required (cfg : Config) : ℚ :=
  (cfg.min_amperage - 1/2) * 240

/-- The loop's mutable state across ticks: the tracked session and the
`last_control_change` / `last_set_amperage` actuation bookkeeping
(lines 10, 258-259). -/
structure LoopState where
  session : Option Session
  last_control_change : ℚ
  last_set_amperage : Option ℚ
deriving DecidableEq

/-- The external inputs one tick consumes: the telemetry sample (or none
when the query returned no data), the charger status read at line 273, the
outcome of the session refresh, the wall-clock time, the responses used
inside `apply_charging_decision`, and the status re-read at line 305. -/
structure TickEnv where
  solar : Option SolarSample
  charger_status : ChargerStatus
  refresh : RefreshOutcome
  now : ℚ
  apply_env : ApplyEnv
  charger_status2 : ChargerStatus
deriving DecidableEq

/-- The fields of the metrics point written by
`log_control_metrics_to_influx` (lines 49-59). -/
structure MetricsSample where
  solar_slope_w_per_s : ℚ
  excess_solar_watts : ℚ
  charging_power_watts : ℚ
  target_amperage : ℚ
  current_amperage : ℚ
deriving DecidableEq

/-- Result of one tick: the state afterwards, the remote calls made in
order, the metrics sample emitted (none when the tick was skipped), the
computed target (none when the tick was skipped), and whether
`apply_charging_decision` was invoked. -/
structure TickResult where
  state : LoopState
  calls : List ActuatorCall
  metrics : Option MetricsSample
  target : Option ℚ
  applied : Bool
deriving DecidableEq

/-- One iteration of the main control loop (lines 261-318), on the path
where every remote call succeeds (a failed session refresh is still an
explicit input).  No telemetry: skip the tick.  Otherwise read the status,
read the charging watts, compute the predicted excess and the target,
actuate when the gate is open and the manual-override guard
(`charging_status == "CHARGING" and current_amperage == 40 and
last_set_amperage != 40`, line 295) does not fire, then re-read the status
and emit one metrics sample. -/
def tick (cfg : Config) (st : LoopState) (env : TickEnv) : TickResult :=
  match env.solar with
  | none => ⟨st, [], none, none, false⟩
  | some solar =>
    let status := env.charger_status
    let w := get_current_charging_watts st.session env.refresh
    let average_excess := -(solar.consumption_watts - w.watts)
    let predicted_excess :=
      average_excess + solar.solar_slope_watts_per_second * (cfg.control_interval * 60)
    let allowed_amps := status.possible_amperage_limits
    let target_amps : ℚ :=
      if solar.production_watts < 500 then listMax allowed_amps
      else if minimum_watts_required cfg ≤ predicted_excess then
        determine_target_amperage predicted_excess allowed_amps 240
      else 0
    let act : LoopState × List ActuatorCall × Bool :=
      if cfg.control_interval * 60 < env.now - st.last_control_change then
        if status.charging_status = "CHARGING" ∧ status.amperage_limit = 40 ∧
            st.last_set_amperage ≠ some 40 then
          ⟨⟨w.session, st.last_control_change, st.last_set_amperage⟩, [], false⟩
        else
          let r := apply_charging_decision env.apply_env w.session status target_amps cfg.min_amperage
          ⟨⟨r.session, env.now, some r.confirmed⟩, r.calls, true⟩
      else
        ⟨⟨w.session, st.last_control_change, st.last_set_amperage⟩, [], false⟩
    let metrics : MetricsSample :=
      ⟨solar.solar_slope_watts_per_second, predicted_excess, w.watts, target_amps,
       env.charger_status2.amperage_limit⟩
    ⟨act.1, ActuatorCall.getStatus :: (w.calls ++ act.2.1 ++ [ActuatorCall.getStatus]),
     some metrics, some target_amps, act.2.2⟩

/-- Modelled from the spec: the per-tick target computation of §4.4 step 5,
written from the spec's words (`production_w < 500` gives the maximum step;
`predicted_excess >= (min(allowed_amps) - 0.5) * voltage` with voltage 240
gives the decider's answer; otherwise 0), to be compared with `tick`. -/
def spec_target (production_w predicted_excess : ℚ) (allowed_amps : List ℚ) : ℚ :=
  if production_w < 500 then listMax allowed_amps
  else if (listMin allowed_amps - 1/2) * 240 ≤ predicted_excess then
    determine_target_amperage predicted_excess allowed_amps 240
  else 0

/-- Model of `ChargePoint.set_amperage_limit` (`python_chargepoint/client.py`
lines 523-569): the status-polling loop.  `stream i` is the `amperage_limit`
the i-th `get_home_charger_status` poll would report; `fuel` is the number
of polls remaining (`range(1, max_retry)` makes `max_retry - 1` polls).
Returns `true` when some poll within the budget reports the requested
limit (the Python `return`), `false` when the budget is exhausted. -/
def set_amperage_poll (stream : ℕ → ℚ) (amperage_limit : ℚ) : ℕ → ℕ → Bool
  | _, 0 => false
  | i, fuel + 1 =>
    if stream i = amperage_limit then true
    else set_amperage_poll stream amperage_limit (i + 1) fuel

/-- Result of `set_amperage_limit`: normal return, or a raised
`ChargePointCommunicationException`. -/
inductive SetAmpResult where
  | ok
  | commError
deriving DecidableEq

/-- `ChargePoint.set_amperage_limit` (client.py lines 523-569): raise when
the HTTP post fails or the API reports a non-success status; otherwise poll
the charger status up to `max_retry - 1` times, returning as soon as the
reported limit equals the request and raising once the retries are
exhausted. -/
def set_amperage_limit (http_ok api_success : Bool) (stream : ℕ → ℚ)
    (amperage_limit : ℚ) (max_retry : ℕ) : SetAmpResult :=
  if http_ok = false then SetAmpResult.commError
  else if api_success = false then SetAmpResult.commError
  else if set_amperage_poll stream amperage_limit 0 (max_retry - 1) then SetAmpResult.ok
  else SetAmpResult.commError

theorem foldl_min_mem : ∀ (l : List ℚ) (a : ℚ), l.foldl min a ∈ a :: l
  | [], _ => by simp
  | b :: l, a => by
    have h := foldl_min_mem l (min a b)
    simp only [List.foldl_cons]
    rcases List.mem_cons.1 h with h1 | h1
    · rcases le_total a b with hab | hab
      · exact List.mem_cons.2 (Or.inl (h1.trans (min_eq_left hab)))
      · exact List.mem_cons_of_mem _ (List.mem_cons.2 (Or.inl (h1.trans (min_eq_right hab))))
    · exact List.mem_cons_of_mem _ (List.mem_cons_of_mem _ h1)

theorem foldl_min_le : ∀ (l : List ℚ) (a x : ℚ), x ∈ a :: l → l.foldl min a ≤ x
  | [], a, x, hx => by
    simp at hx
    simp [hx]
  | b :: l, a, x, hx => by
    simp only [List.foldl_cons]
    rcases List.mem_cons.1 hx with h1 | h1
    · have h2 := foldl_min_le l (min a b) (min a b) (List.mem_cons_self _ _)
      exact h1 ▸ h2.trans (min_le_left a b)
    · rcases List.mem_cons.1 h1 with h2 | h2
      · have h3 := foldl_min_le l (min a b) (min a b) (List.mem_cons_self _ _)
        exact h2 ▸ h3.trans (min_le_right a b)
      · exact foldl_min_le l (min a b) x (List.mem_cons_of_mem _ h2)

theorem foldl_max_mem : ∀ (l : List ℚ) (a : ℚ), l.foldl max a ∈ a :: l
  | [], _ => by simp
  | b :: l, a => by
    have h := foldl_max_mem l (max a b)
    simp only [List.foldl_cons]
    rcases List.mem_cons.1 h with h1 | h1
    · rcases le_total a b with hab | hab
      · exact List.mem_cons_of_mem _ (List.mem_cons.2 (Or.inl (h1.trans (max_eq_right hab))))
      · exact List.mem_cons.2 (Or.inl (h1.trans (max_eq_left hab)))
    · exact List.mem_cons_of_mem _ (List.mem_cons_of_mem _ h1)

theorem le_foldl_max : ∀ (l : List ℚ) (a x : ℚ), x ∈ a :: l → x ≤ l.foldl max a
  | [], a, x, hx => by
    simp at hx
    simp [hx]
  | b :: l, a, x, hx => by
    simp only [List.foldl_cons]
    rcases List.mem_cons.1 hx with h1 | h1
    · have h2 := le_foldl_max l (max a b) (max a b) (List.mem_cons_self _ _)
      exact h1 ▸ (le_max_left a b).trans h2
    · rcases List.mem_cons.1 h1 with h2 | h2
      · have h3 := le_foldl_max l (max a b) (max a b) (List.mem_cons_self _ _)
        exact h2 ▸ (le_max_right a b).trans h3
      · exact le_foldl_max l (max a b) x (List.mem_cons_of_mem _ h2)

theorem listMin_mem {l : List ℚ} (h : l ≠ []) : listMin l ∈ l := by
  cases l with
  | nil => exact absurd rfl h
  | cons a l => exact foldl_min_mem l a

theorem listMin_le {l : List ℚ} {x : ℚ} (hx : x ∈ l) : listMin l ≤ x := by
  cases l with
  | nil => simp at hx
  | cons a l => exact foldl_min_le l a x hx

theorem listMax_mem {l : List ℚ} (h : l ≠ []) : listMax l ∈ l := by
  cases l with
  | nil => exact absurd rfl h
  | cons a l => exact foldl_max_mem l a

theorem le_listMax {l : List ℚ} {x : ℚ} (hx : x ∈ l) : x ≤ listMax l := by
  cases l with
  | nil => simp at hx
  | cons a l => exact le_foldl_max l a x hx

theorem determine_mem {e v : ℚ} {S : List ℚ} (hS : S ≠ []) (he : 0 < e) :
    determine_target_amperage e S v ∈ S := by
  rw [determine_target_amperage, if_neg (not_le.2 he)]
  by_cases hp : S.filter (fun amp => decide (max (e / v) (listMin S - 1/2) ≤ amp)) = []
  · simp only [hp, if_pos]
    exact listMax_mem hS
  · simp only [hp, if_neg, ite_false]
    exact (List.mem_filter.1 (listMin_mem hp)).1

theorem determine_mem_or_eq_zero {e v : ℚ} {S : List ℚ} (hS : S ≠ []) :
    determine_target_amperage e S v ∈ S ∨ determine_target_amperage e S v = 0 := by
  by_cases he : e ≤ 0
  · right
    rw [determine_target_amperage, if_pos he]
  · left
    exact determine_mem hS (not_le.1 he)

theorem determine_nonneg {e v : ℚ} {S : List ℚ} (hS : S ≠ [])
    (hpos : ∀ a ∈ S, 0 < a) : 0 ≤ determine_target_amperage e S v := by
  rcases determine_mem_or_eq_zero (e := e) (v := v) hS with h | h
  · exact (hpos _ h).le
  · rw [h]

theorem set_amperage_poll_true_iff (stream : ℕ → ℚ) (limit : ℚ) :
    ∀ (fuel i : ℕ), set_amperage_poll stream limit i fuel = true ↔
      ∃ j, j < fuel ∧ stream (i + j) = limit
  | 0, i => by simp [set_amperage_poll]
  | fuel + 1, i => by
    by_cases h : stream i = limit
    · simp only [set_amperage_poll, h, if_pos, true_iff]
      exact ⟨0, Nat.succ_pos fuel, by simpa using h⟩
    · rw [set_amperage_poll, if_neg h, set_amperage_poll_true_iff stream limit fuel (i + 1)]
      constructor
      · rintro ⟨j, hj, hs⟩
        refine ⟨j + 1, Nat.succ_lt_succ hj, ?_⟩
        rw [show i + (j + 1) = i + 1 + j from by omega]
        exact hs
      · rintro ⟨j, hj, hs⟩
        cases j with
        | zero => exact absurd (by simpa using hs) h
        | succ k =>
          refine ⟨k, Nat.lt_of_succ_lt_succ hj, ?_⟩
          rw [show i + 1 + k = i + (k + 1) from by omega]
          exact hs

/-- C9: after a successful set command (`http_ok` and `api_success`),
`set_amperage_limit` polls the charger status a bounded number of times and
returns normally exactly when some poll within the `max_retry - 1` budget
reports the requested limit; otherwise it raises
`ChargePointCommunicationException` (modelled as `commError`). -/
theorem c9_set_amperage_limit_retry_exhaustion (http_ok api_success : Bool)
    (stream : ℕ → ℚ) (limit : ℚ) (max_retry : ℕ) :
    set_amperage_limit http_ok api_success stream limit max_retry = SetAmpResult.ok ↔
      http_ok = true ∧ api_success = true ∧
        ∃ j, j < max_retry - 1 ∧ stream j = limit := by
  cases http_ok with
  | false => simp [set_amperage_limit]
  | true =>
    cases api_success with
    | false => simp [set_amperage_limit]
    | true =>
      by_cases hp : set_amperage_poll stream limit 0 (max_retry - 1) = true
      · have h0 := (set_amperage_poll_true_iff stream limit (max_retry - 1) 0).1 hp
        simp only [set_amperage_limit, Bool.true_eq_false, if_false, hp, if_true, true_and]
        simpa using h0
      · simp only [set_amperage_limit, Bool.true_eq_false, if_false, hp, true_and]
        constructor
        · intro h
          exact absurd h (by simp)
        · rintro ⟨j, hj, hs⟩
          exact absurd ((set_amperage_poll_true_iff stream limit (max_retry - 1) 0).2
            ⟨j, hj, by simpa using hs⟩) hp

/-- C3: the decider's concrete values on the ladder 8/16/24/32/40 at 240 V:
0 for excess 0 and -50; 16 for 2000 W (ideal 8.33); 8 for 1800 W (ideal
7.5, the 0.5 slack keeping 8 eligible); 40 for 10000 W (no step large
enough, fall back to the maximum). -/
theorem c3_determine_target_amperage_examples :
    determine_target_amperage 0 [8, 16, 24, 32, 40] 240 = 0 ∧
    determine_target_amperage (-50) [8, 16, 24, 32, 40] 240 = 0 ∧
    determine_target_amperage 2000 [8, 16, 24, 32, 40] 240 = 16 ∧
    determine_target_amperage 1800 [8, 16, 24, 32, 40] 240 = 8 ∧
    determine_target_amperage 10000 [8, 16, 24, 32, 40] 240 = 40 := by
  refine ⟨?_, ?_, ?_, ?_, ?_⟩ <;>
    norm_num [determine_target_amperage, listMin, listMax, List.filter,
      min_def, max_def, List.cons_ne_nil]

/-- C8: a failed `refresh()` on a tracked session is not propagated by
`get_current_charging_watts`: it clears the tracked session and returns 0
(the model's totality is the absence of a raised exception); with no
tracked session it returns 0 without making any remote call. -/
theorem c8_refresh_failure_invalidates :
    (∀ s : Session,
      (get_current_charging_watts (some s) RefreshOutcome.fail).watts = 0 ∧
      (get_current_charging_watts (some s) RefreshOutcome.fail).session = none) ∧
    (∀ refresh : RefreshOutcome,
      (get_current_charging_watts none refresh).watts = 0 ∧
      (get_current_charging_watts none refresh).calls = []) := by
  exact ⟨fun _ => ⟨rfl, rfl⟩, fun _ => ⟨rfl, rfl⟩⟩

/-- C5: `apply_charging_decision` with `target_amps = 0`: an ACTIVE session
is stopped and the tracked state cleared; otherwise the limit is commanded
down to `min_amperage` exactly when it is not already there (idempotent
repetition makes no remote call); in every case the returned confirmed
amperage is 0 and no session is left ACTIVE. -/
theorem c5_apply_target_zero (env : ApplyEnv) (session : Option Session)
    (charger_status : ChargerStatus) (min_amperage : ℚ) :
    (apply_charging_decision env session charger_status 0 min_amperage).confirmed = 0 ∧
    (apply_charging_decision env session charger_status 0 min_amperage).session = none ∧
    (session ≠ none →
      (apply_charging_decision env session charger_status 0 min_amperage).calls =
        [ActuatorCall.stopSession]) ∧
    (session = none → charger_status.amperage_limit ≠ min_amperage →
      (apply_charging_decision env session charger_status 0 min_amperage).calls =
        [ActuatorCall.setAmperage min_amperage]) ∧
    (session = none → charger_status.amperage_limit = min_amperage →
      (apply_charging_decision env session charger_status 0 min_amperage).calls = []) := by
  cases session <;> by_cases h : charger_status.amperage_limit = min_amperage <;>
    simp [apply_charging_decision, h]

/-- A charger status sitting at the 8 A floor, used by witnesses. -/
def statusFloor : ChargerStatus := ⟨8, [8, 16, 24, 32, 40], false, "AVAILABLE"⟩

/-- A plugged-in, charging status at 24 A, used by witnesses. -/
def statusMid : ChargerStatus := ⟨24, [8, 16, 24, 32, 40], true, "CHARGING"⟩

/-- Remote responses for the witnesses: the post-set status poll reports
32 A and a started session reports 7 kW. -/
def applyEnvW : ApplyEnv := ⟨⟨32, [8, 16, 24, 32, 40], true, "CHARGING"⟩, ⟨7⟩⟩

theorem c5_apply_target_zero_witness :
    (apply_charging_decision applyEnvW none statusFloor 0 8).confirmed = 0 ∧
    (apply_charging_decision applyEnvW none statusFloor 0 8).session = none ∧
    (apply_charging_decision applyEnvW none statusFloor 0 8).calls = [] := by
  have h := c5_apply_target_zero applyEnvW none statusFloor 8
  exact ⟨h.1, h.2.1, h.2.2.2.2 rfl rfl⟩

/-- C6: `apply_charging_decision` with `target_amps > 0`.  When the limit
differs: an ACTIVE session is stopped before the limit is commanded (the
call order shows the change never straddles a live session), the status is
polled once, the convergence warning fires exactly when the poll does not
yet reflect the request, and afterwards a session is started when one was
stopped or when none is tracked and a vehicle is plugged in.  When the
limit already matches: no `setAmperage` call at all, and a session is
started only when none is tracked and a vehicle is plugged in. -/
theorem c6_apply_target_positive (env : ApplyEnv) (session : Option Session)
    (charger_status : ChargerStatus) (target_amps min_amperage : ℚ)
    (ht : 0 < target_amps) :
    (charger_status.amperage_limit ≠ target_amps →
      (apply_charging_decision env session charger_status target_amps min_amperage).calls =
        (if session = none then [] else [ActuatorCall.stopSession]) ++
          [ActuatorCall.setAmperage target_amps, ActuatorCall.getStatus] ++
          (if session = none then
            (if charger_status.plugged_in = true then [ActuatorCall.startSession] else [])
          else [ActuatorCall.startSession]) ∧
      (apply_charging_decision env session charger_status target_amps min_amperage).confirmed =
        env.updated_status.amperage_limit ∧
      ((apply_charging_decision env session charger_status target_amps min_amperage).warned = true ↔
        env.updated_status.amperage_limit ≠ target_amps)) ∧
    (charger_status.amperage_limit = target_amps →
      (∀ a : ℚ, ActuatorCall.setAmperage a ∉
        (apply_charging_decision env session charger_status target_amps min_amperage).calls) ∧
      (apply_charging_decision env session charger_status target_amps min_amperage).calls =
        (if session = none ∧ charger_status.plugged_in = true then
          [ActuatorCall.startSession]
        else []) ∧
      (apply_charging_decision env session charger_status target_amps min_amperage).confirmed =
        target_amps) := by
  cases session <;> by_cases h : charger_status.amperage_limit = target_amps <;>
    by_cases hp : charger_status.plugged_in = true <;>
      simp [apply_charging_decision, h, hp, ht.ne']

theorem c6_apply_target_positive_witness :
    (0 : ℚ) < 32 ∧
    (apply_charging_decision applyEnvW (some ⟨7⟩) statusMid 32 8).calls =
      [ActuatorCall.stopSession, ActuatorCall.setAmperage 32, ActuatorCall.getStatus,
       ActuatorCall.startSession] ∧
    (apply_charging_decision applyEnvW (some ⟨7⟩) statusMid 32 8).confirmed = 32 ∧
    (apply_charging_decision applyEnvW (some ⟨7⟩) statusMid 32 8).warned = false := by
  have h := (c6_apply_target_positive applyEnvW (some ⟨7⟩) statusMid 32 8 (by norm_num)).1
    (by norm_num [statusMid])
  refine ⟨by norm_num, ?_, ?_, ?_⟩
  · rw [h.1]
    simp [statusMid]
  · rw [h.2.1]
    norm_num [applyEnvW]
  · have hw := h.2.2
    simp only [applyEnvW] at hw
    norm_num at hw
    simpa using hw

/-- Control configuration used by witnesses: 5-minute interval, 8 A floor. -/
def cfgW : Config := ⟨5, 8⟩

/-- Loop state used by witnesses: nothing tracked, no actuation yet. -/
def stW : LoopState := ⟨none, 0, none⟩

/-- Plugged-in idle status on the 8..40 ladder, used by witnesses. -/
def statusW : ChargerStatus := ⟨24, [8, 16, 24, 32, 40], true, "AVAILABLE"⟩

/-- Witness tick inputs: telemetry available at 300 W production. -/
def envW1 : TickEnv :=
  ⟨some ⟨300, 100, 2⟩, statusW, RefreshOutcome.ok 3, 1000, ⟨statusW, ⟨7⟩⟩, statusW⟩

/-- Witness tick inputs: telemetry unavailable. -/
def envSkip : TickEnv :=
  ⟨none, statusW, RefreshOutcome.fail, 1000, ⟨statusW, ⟨7⟩⟩, statusW⟩

/-- Witness tick inputs for the manual-override guard: CHARGING at 40 A. -/
def statusG : ChargerStatus := ⟨40, [8, 16, 24, 32, 40], true, "CHARGING"⟩

/-- Guard-witness environment built on `statusG`. -/
def envG : TickEnv :=
  ⟨some ⟨300, 100, 2⟩, statusG, RefreshOutcome.ok 3, 1000, ⟨statusG, ⟨7⟩⟩, statusG⟩

/-- C7: a tick on which the telemetry source returns no data performs zero
remote calls, computes no decision, emits no metrics sample, and leaves the
loop state (tracked session, `last_set_amperage`, `last_control_change`)
byte-for-byte unchanged. -/
theorem c7_unavailable_telemetry_skips_tick (cfg : Config) (st : LoopState)
    (env : TickEnv) (h : env.solar = none) :
    tick cfg st env = ⟨st, [], none, none, false⟩ := by
  simp [tick, h]

theorem c7_unavailable_telemetry_skips_tick_witness :
    tick cfgW stW envSkip = ⟨stW, [], none, none, false⟩ :=
  c7_unavailable_telemetry_skips_tick cfgW stW envSkip rfl

/-- C4: for a non-empty ladder and positive excess the decider's answer is
a ladder step, and every target a tick computes with a non-empty ladder
lies in the ladder or is 0. -/
theorem c4_target_in_ladder :
    (∀ (e v : ℚ) (S : List ℚ), S ≠ [] → 0 < e →
      determine_target_amperage e S v ∈ S) ∧
    (∀ (cfg : Config) (st : LoopState) (env : TickEnv) (t : ℚ),
      env.charger_status.possible_amperage_limits ≠ [] →
      (tick cfg st env).target = some t →
      t ∈ env.charger_status.possible_amperage_limits ∨ t = 0) := by
  constructor
  · exact fun e v S hS he => determine_mem hS he
  · intro cfg st env t hS ht
    cases hsol : env.solar with
    | none => simp [tick, hsol] at ht
    | some s =>
      simp only [tick, hsol, Option.some.injEq] at ht
      subst ht
      split
      · exact Or.inl (listMax_mem hS)
      · split
        · exact determine_mem_or_eq_zero hS
        · exact Or.inr rfl

theorem c4_target_in_ladder_witness :
    determine_target_amperage 2000 [8, 16, 24, 32, 40] 240 ∈
      ([8, 16, 24, 32, 40] : List ℚ) ∧
    ((40 : ℚ) ∈ envW1.charger_status.possible_amperage_limits ∨ (40 : ℚ) = 0) := by
  constructor
  · exact c4_target_in_ladder.1 2000 240 _ (by simp) (by norm_num)
  · refine c4_target_in_ladder.2 cfgW stW envW1 40 (by simp [envW1, statusW]) ?_
    norm_num [tick, cfgW, stW, envW1, statusW, get_current_charging_watts,
      minimum_watts_required, listMax, max_def]

/-- C1: whenever telemetry is available, the tick's decision equals the
spec's formula: `predicted_excess` is `-(consumption_w -
current_charging_watts) + slope_w_per_s * control_interval_seconds` (the
metrics sample carries exactly that value) and the target is
`spec_target` — max of the ladder below 500 W production, the decider's
answer at or above the `(min(allowed_amps) - 0.5) * 240` threshold,
otherwise 0; in particular production 300 W always selects the maximum
step. -/
theorem c1_decision_formula (cfg : Config) (st : LoopState) (env : TickEnv)
    (s : SolarSample) (hsol : env.solar = some s)
    (hmin : listMin env.charger_status.possible_amperage_limits = cfg.min_amperage) :
    (tick cfg st env).target =
      some (spec_target s.production_watts
        (-(s.consumption_watts - (get_current_charging_watts st.session env.refresh).watts) +
          s.solar_slope_watts_per_second * (cfg.control_interval * 60))
        env.charger_status.possible_amperage_limits) ∧
    ((tick cfg st env).metrics).map MetricsSample.excess_solar_watts =
      some (-(s.consumption_watts - (get_current_charging_watts st.session env.refresh).watts) +
        s.solar_slope_watts_per_second * (cfg.control_interval * 60)) ∧
    (s.production_watts = 300 →
      (tick cfg st env).target =
        some (listMax env.charger_status.possible_amperage_limits)) := by
  refine ⟨?_, ?_, ?_⟩
  · simp only [tick, hsol, spec_target, minimum_watts_required, hmin]
  · simp only [tick, hsol]
    rfl
  · intro h300
    simp only [tick, hsol, h300]
    norm_num

theorem c1_decision_formula_witness : (tick cfgW stW envW1).target = some 40 := by
  have h := c1_decision_formula cfgW stW envW1 ⟨300, 100, 2⟩ rfl
    (by norm_num [envW1, statusW, cfgW, listMin, min_def])
  have h1 := h.2.2 rfl
  rw [h1]
  norm_num [envW1, statusW, listMax, max_def]

/-- C2 (amended): if the charger status reports CHARGING at an
`amperage_limit` of 40 — the hardcoded manual-override amperage, which
coincides with the ladder's maximum step only when that step is 40 — and
`last_set_amperage` is not 40, the tick skips actuation:
`apply_charging_decision` is not invoked, no actuating call (set amperage,
start or stop session) is made, and `last_set_amperage` and
`last_control_change` keep their values. -/
theorem c2_manual_override_guard (cfg : Config) (st : LoopState) (env : TickEnv)
    (hgate : cfg.control_interval * 60 ≤ env.now - st.last_control_change)
    (hch : env.charger_status.charging_status = "CHARGING")
    (hamp : env.charger_status.amperage_limit = 40)
    (hlast : st.last_set_amperage ≠ some 40) :
    (tick cfg st env).applied = false ∧
    (tick cfg st env).calls.filter isActuating = [] ∧
    (tick cfg st env).state.last_set_amperage = st.last_set_amperage ∧
    (tick cfg st env).state.last_control_change = st.last_control_change := by
  cases hsol : env.solar with
  | none => simp [tick, hsol]
  | some s =>
    by_cases hg : cfg.control_interval * 60 < env.now - st.last_control_change
    all_goals cases hsess : st.session <;> cases href : env.refresh <;>
      simp [tick, hsol, hch, hamp, hlast, hg, hsess, href,
        get_current_charging_watts, isActuating]

theorem c2_manual_override_guard_witness :
    (tick cfgW stW envG).applied = false ∧
    (tick cfgW stW envG).calls.filter isActuating = [] ∧
    (tick cfgW stW envG).state.last_set_amperage = stW.last_set_amperage ∧
    (tick cfgW stW envG).state.last_control_change = stW.last_control_change :=
  c2_manual_override_guard cfgW stW envG
    (by norm_num [cfgW, stW, envG]) rfl rfl (by simp [stW])

/-- Loop state for the counterexample: the loop last commanded 8 A. -/
def stCx : LoopState := ⟨none, 0, some 8⟩

/-- Counterexample status: CHARGING at 32 A, the maximum step of the ladder
8/16/24/32 (which tops out below 40). -/
def statusCx : ChargerStatus := ⟨32, [8, 16, 24, 32], true, "CHARGING"⟩

/-- Counterexample tick inputs built on `statusCx`, production 300 W. -/
def envCx : TickEnv :=
  ⟨some ⟨300, 0, 0⟩, statusCx, RefreshOutcome.fail, 1000, ⟨statusCx, ⟨0⟩⟩, statusCx⟩

/-- C2 as stated is false: on a ladder whose maximum step is 32 A, a tick
with the gate open, status CHARGING at `amperage_limit = 32 =
max(possible_amperage_limits)` and `last_set_amperage = 8 ≠ 32` does NOT
skip actuation — the guard compares against the literal 40, so
`apply_charging_decision` runs, an actuating call is made, and
`last_set_amperage` changes. -/
theorem c2_manual_override_guard_counterexample :
    cfgW.control_interval * 60 ≤ envCx.now - stCx.last_control_change ∧
    envCx.charger_status.charging_status = "CHARGING" ∧
    envCx.charger_status.amperage_limit =
      listMax envCx.charger_status.possible_amperage_limits ∧
    stCx.last_set_amperage ≠
      some (listMax envCx.charger_status.possible_amperage_limits) ∧
    (tick cfgW stCx envCx).applied = true ∧
    (tick cfgW stCx envCx).state.last_set_amperage ≠ stCx.last_set_amperage ∧
    (tick cfgW stCx envCx).calls.filter isActuating ≠ [] := by
  refine ⟨by norm_num [cfgW, stCx, envCx], rfl, ?_, ?_, ?_, ?_, ?_⟩ <;>
    norm_num [tick, cfgW, stCx, envCx, statusCx, get_current_charging_watts,
      apply_charging_decision, minimum_watts_required, listMax, listMin,
      isActuating, List.filter, max_def, min_def]

/-- C10: for a fixed non-empty ladder of positive steps and fixed positive
voltage, `determine_target_amperage` is monotone nondecreasing in the
excess argument. -/
theorem c10_determine_monotone (S : List ℚ) (v e1 e2 : ℚ) (hS : S ≠ [])
    (hpos : ∀ a ∈ S, 0 < a) (hv : 0 < v) (h12 : e1 ≤ e2) :
    determine_target_amperage e1 S v ≤ determine_target_amperage e2 S v := by
  by_cases h1 : e1 ≤ 0
  · rw [determine_target_amperage, if_pos h1]
    exact determine_nonneg hS hpos
  · have h2 : ¬ e2 ≤ 0 := fun h => h1 (h12.trans h)
    have hdiv : e1 / v ≤ e2 / v := by gcongr
    have hii : max (e1 / v) (listMin S - 1/2) ≤ max (e2 / v) (listMin S - 1/2) :=
      max_le_max hdiv le_rfl
    simp only [determine_target_amperage, if_neg h1, if_neg h2]
    have hsub : S.filter (fun amp => decide (max (e2 / v) (listMin S - 1/2) ≤ amp)) ⊆
        S.filter (fun amp => decide (max (e1 / v) (listMin S - 1/2) ≤ amp)) := by
      intro a ha
      rw [List.mem_filter] at ha ⊢
      exact ⟨ha.1, decide_eq_true (le_trans hii (of_decide_eq_true ha.2))⟩
    by_cases hf2 : S.filter (fun amp => decide (max (e2 / v) (listMin S - 1/2) ≤ amp)) = []
    · rw [if_pos hf2]
      by_cases hf1 : S.filter (fun amp => decide (max (e1 / v) (listMin S - 1/2) ≤ amp)) = []
      · rw [if_pos hf1]
      · rw [if_neg hf1]
        exact le_listMax (List.mem_filter.1 (listMin_mem hf1)).1
    · rw [if_neg hf2]
      have hmem2 := hsub (listMin_mem hf2)
      have hf1 : S.filter (fun amp => decide (max (e1 / v) (listMin S - 1/2) ≤ amp)) ≠ [] := by
        intro h0
        rw [h0] at hmem2
        simp at hmem2
      rw [if_neg hf1]
      exact listMin_le hmem2

theorem c10_determine_monotone_witness :
    determine_target_amperage 1800 [8, 16, 24, 32, 40] 240 ≤
      determine_target_amperage 2000 [8, 16, 24, 32, 40] 240 := by
  refine c10_determine_monotone [8, 16, 24, 32, 40] 240 1800 2000 (by simp) ?_
    (by norm_num) (by norm_num)
  intro a ha
  fin_cases ha <;> norm_num
